import Mathlib

set_option maxRecDepth 40000

/-!
Shallow embedding of the request-protection and caching pipeline of the
API gateway (WAF guard, DDoS-protection guard, cache service, security
monitoring middleware), translated from the TypeScript sources under
`src/backend/api-gateway/src/`.  JavaScript `Map`s are modelled as
association lists, JS numbers holding timestamps/counters as `Int`,
thrown exceptions as `Except`/`Option` results, and `setTimeout`
callbacks as explicit transition-system operations.
-/

namespace Gateway

/-! ### Association-list maps (model of JS `Map`) -/

/-- Lookup in an association list (first binding wins, like `Map.get`). -/
def lookupA {β : Type _} (k : String) : List (String × β) → Option β
  | [] => none
  | (a, b) :: rest => if a = k then some b else lookupA k rest

/-- `Map.set`: replace the binding in place, or append a fresh one. -/
def setA {β : Type _} (k : String) (v : β) : List (String × β) → List (String × β)
  | [] => [(k, v)]
  | (a, b) :: rest => if a = k then (k, v) :: rest else (a, b) :: setA k v rest

/-- `Map.delete`: remove the binding for `k`. -/
def eraseA {β : Type _} (k : String) : List (String × β) → List (String × β)
  | [] => []
  | (a, b) :: rest => if a = k then rest else (a, b) :: eraseA k rest

/-! ### Character/string helpers -/

/-- ASCII lowercase of one character (JS `toLowerCase` restricted to the
ASCII range used by every pattern and input in the sources). -/
def lowChar (c : Char) : Char :=
  if 65 ≤ c.toNat ∧ c.toNat ≤ 90 then Char.ofNat (c.toNat + 32) else c

/-- ASCII lowercase of a character list. -/
def lowerL (s : List Char) : List Char := s.map lowChar

/-- Does `hay` start with `needle`? -/
def startsWithL : List Char → List Char → Bool
  | _, [] => true
  | [], _ :: _ => false
  | h :: hs, n :: ns => h = n && startsWithL hs ns

/-- Does `hay` contain `needle` as a contiguous substring? -/
def containsSub (hay needle : List Char) : Bool :=
  match hay with
  | [] => startsWithL [] needle
  | _ :: hs => startsWithL hay needle || containsSub hs needle

/-- JS word character `\w` = `[A-Za-z0-9_]`. -/
def isWordChar (c : Char) : Bool :=
  (48 ≤ c.toNat ∧ c.toNat ≤ 57) || (65 ≤ c.toNat ∧ c.toNat ≤ 90) ||
  (97 ≤ c.toNat ∧ c.toNat ≤ 122) || c = '_'

/-- JS whitespace `\s` (ASCII part: space, tab, LF, VT, FF, CR). -/
def isSpaceChar (c : Char) : Bool :=
  c = ' ' || c = '\t' || c = '\n' || c.toNat = 11 || c.toNat = 12 || c = '\r'

/-! ### A small regular-expression engine

Backtracking matcher for the fragment of JS regular expressions used in
`waf.guard.ts`: literals, `.`, negated character classes, `\w`, `\s`,
`\b`, alternation, concatenation and greedy/lazy repetition.  All the
source patterns carry the `i` flag; this is modelled by lowercasing the
scanned input once and writing the patterns in lowercase, which is
equivalent on ASCII.  The `g` flag (a mutable `lastIndex` per pattern
object, consulted and updated by `RegExp.test`) is modelled explicitly
by `gTest`. -/

inductive RE : Type where
  /-- matches the empty string -/
  | eps : RE
  /-- literal character (exact match; inputs are pre-lowercased) -/
  | lit : Char → RE
  /-- `.` — any character except newline -/
  | anyc : RE
  /-- negated character class `[^cs]` (no newline restriction beyond members) -/
  | ncls : List Char → RE
  /-- `\w` -/
  | wordc : RE
  /-- `\s` -/
  | spacec : RE
  /-- `\b` word boundary -/
  | bnd : RE
  | cat : RE → RE → RE
  | alt : RE → RE → RE
  /-- repetition; `true` = lazy (`*?`), `false` = greedy (`*`) -/
  | star : Bool → RE → RE
deriving Repr, DecidableEq

/-- `r+` as `r · r*`. -/
def RE.plus (lazy : Bool) (r : RE) : RE := .cat r (.star lazy r)

/-- First-success choice on optional match ends. -/
def orElseO (a b : Option Nat) : Option Nat :=
  match a with
  | some x => some x
  | none => b

/-- Backtracking matcher.  `prev` is the character just before the
current position (for `\b`); the continuation `k` receives the updated
`prev` and the remaining input and returns the overall match end, so the
first success in JS backtracking preference order is returned.  `fuel`
bounds the recursion depth and is chosen large enough for every use. -/
def reM : Nat → RE → Option Char → List Char → (Option Char → List Char → Option Nat) → Option Nat
  | 0, _, _, _, _ => none
  | Nat.succ fuel, re, prev, cs, k =>
    match re with
    | .eps => k prev cs
    | .lit c =>
      match cs with
      | [] => none
      | c2 :: rest => if c2 = c then k (some c2) rest else none
    | .anyc =>
      match cs with
      | [] => none
      | c2 :: rest => if c2 = '\n' then none else k (some c2) rest
    | .ncls l =>
      match cs with
      | [] => none
      | c2 :: rest => if l.contains c2 then none else k (some c2) rest
    | .wordc =>
      match cs with
      | [] => none
      | c2 :: rest => if isWordChar c2 then k (some c2) rest else none
    | .spacec =>
      match cs with
      | [] => none
      | c2 :: rest => if isSpaceChar c2 then k (some c2) rest else none
    | .bnd =>
      let left := match prev with | some p => isWordChar p | none => false
      let right := match cs with | c2 :: _ => isWordChar c2 | [] => false
      if left ≠ right then k prev cs else none
    | .cat a b => reM fuel a prev cs fun p r => reM fuel b p r k
    | .alt a b => orElseO (reM fuel a prev cs k) (reM fuel b prev cs k)
    | .star lazy a =>
      let once := fun kk => reM fuel a prev cs fun p r =>
        if r.length < cs.length then reM fuel (.star lazy a) p r kk else none
      if lazy then orElseO (k prev cs) (once k)
      else orElseO (once k) (k prev cs)

/-- Fuel sufficient for all concrete evaluations in this development. -/
def reFuel (s : List Char) : Nat := (s.length + 2) * 4096

/-- The character just before position `j` of `s` (for `\b`). -/
def prevAt (s : List Char) (j : Nat) : Option Char :=
  if j = 0 then none else (s.drop (j - 1)).head?

/-- Try to match `re` at start positions `j, j+1, …` of `s` (at most
`n` of them); return the end position of the first (leftmost) match. -/
def reFindGo (re : RE) (s : List Char) : Nat → Nat → Option Nat
  | 0, _ => none
  | Nat.succ n, j =>
    match reM (reFuel s) re (prevAt s j) (s.drop j) (fun _ r => some (s.length - r.length)) with
    | some e => some e
    | none => reFindGo re s n (j + 1)

/-- End position of the leftmost match of `re` in `s` starting at or
after index `i`, if any. -/
def reFind (re : RE) (s : List Char) (i : Nat) : Option Nat :=
  reFindGo re s (s.length + 1 - i) i

/-- JS `RegExp.prototype.test` on a regex with the `g` flag:
consult `lastIndex`, search from there; on success return `true` and
the new `lastIndex` (the match end); on failure return `false` and
reset `lastIndex` to `0`. -/
def gTest (re : RE) (li : Nat) (s : List Char) : Bool × Nat :=
  if s.length < li then (false, 0)
  else
    match reFind re s li with
    | some e => (true, e)
    | none => (false, 0)

/-! ### WAF guard (`waf.guard.ts`)

The six signature-pattern arrays are transcribed below in lowercase
(every source regex carries `/gi`; the `i` flag is modelled by
lowercasing the scanned input, the `g` flag by the explicit
`lastIndex` state threaded through `gTest`). -/

/-- Concatenation of literal characters. -/
def rstr : List Char → RE
  | [] => .eps
  | c :: cs => .cat (.lit c) (rstr cs)

/-- Literal string as a regex. -/
def rstrS (s : String) : RE := rstr s.data

/-- Left-to-right alternation of a nonempty list of regexes. -/
def altL : List RE → RE
  | [] => .eps
  | [r] => r
  | r :: rs => .alt r (altL rs)

/-- The single-quote character (U+0027). -/
def qc : Char := Char.ofNat 39

/-- The backtick character (U+0060). -/
def bq : Char := Char.ofNat 96

/-- `<NAME[^>]*>.*?</NAME>` (used for the script/iframe/object XSS patterns). -/
def tagPair (name : String) : RE :=
  .cat (.lit '<') (.cat (rstrS name) (.cat (.star false (.ncls ['>'])) (.cat (.lit '>')
    (.cat (.star true .anyc) (.cat (rstrS "</") (.cat (rstrS name) (.lit '>')))))))

/-- `<NAME[^>]*>` (used for the embed/link/meta XSS patterns). -/
def openTag (name : String) : RE :=
  .cat (.lit '<') (.cat (rstrS name) (.cat (.star false (.ncls ['>'])) (.lit '>')))

/-- `WafGuard.sqlInjectionPatterns`, in source order. -/
def sqlInjectionPatterns : List RE := [
  -- (\b(ALTER|CREATE|DELETE|DROP|EXEC|EXECUTE|INSERT|MERGE|SELECT|UPDATE|UNION|INTO|FROM|WHERE)\b)
  .cat .bnd (.cat (altL [rstrS "alter", rstrS "create", rstrS "delete", rstrS "drop",
    rstrS "exec", rstrS "execute", rstrS "insert", rstrS "merge", rstrS "select",
    rstrS "update", rstrS "union", rstrS "into", rstrS "from", rstrS "where"]) .bnd),
  -- ('|(\\')|("|\\")|(;|\\;))
  altL [.lit qc, rstr ['\\', qc], .lit '"', rstr ['\\', '"'], .lit ';', rstr ['\\', ';']],
  -- ((\%27)|(\')|((\%3D)|(=))[^\n]*((\%27)|(\')|((\%3B)|(;))))
  altL [rstrS "%27", .lit qc,
    .cat (altL [rstrS "%3d", .lit '='])
      (.cat (.star false (.ncls ['\n'])) (altL [rstrS "%27", .lit qc, rstrS "%3b", .lit ';']))],
  -- ((\%27)|(\'))union
  .cat (altL [rstrS "%27", .lit qc]) (rstrS "union"),
  -- \w*((\%27)|(\'))((\%6F)|o|(\%4F))((\%72)|r|(\%52))
  .cat (.star false .wordc) (.cat (altL [rstrS "%27", .lit qc])
    (.cat (altL [rstrS "%6f", .lit 'o', rstrS "%4f"]) (altL [rstrS "%72", .lit 'r', rstrS "%52"]))),
  -- exec(\s|\+)+(s|x)p\w+
  .cat (rstrS "exec") (.cat (RE.plus false (.alt .spacec (.lit '+')))
    (.cat (altL [.lit 's', .lit 'x']) (.cat (.lit 'p') (RE.plus false .wordc))))]

/-- `WafGuard.xssPatterns`, in source order. -/
def xssPatterns : List RE := [
  tagPair "script",      -- <script[^>]*>.*?<\/script>
  tagPair "iframe",      -- <iframe[^>]*>.*?<\/iframe>
  tagPair "object",      -- <object[^>]*>.*?<\/object>
  openTag "embed",       -- <embed[^>]*>
  openTag "link",        -- <link[^>]*>
  openTag "meta",        -- <meta[^>]*>
  rstrS "javascript:",   -- javascript:
  -- on\w+\s*=
  .cat (rstrS "on") (.cat (RE.plus false .wordc) (.cat (.star false .spacec) (.lit '='))),
  -- <.*?style\s*=.*?expression\s*\(
  .cat (.lit '<') (.cat (.star true .anyc) (.cat (rstrS "style") (.cat (.star false .spacec)
    (.cat (.lit '=') (.cat (.star true .anyc) (.cat (rstrS "expression")
      (.cat (.star false .spacec) (.lit '('))))))))]

/-- `WafGuard.pathTraversalPatterns`, in source order. -/
def pathTraversalPatterns : List RE := [
  rstrS "../",           -- \.\.\/
  rstr ['.', '.', '\\'], -- \.\.\\
  rstrS "%2e%2e%2f",
  rstrS "%2e%2e",
  rstrS "..%2f",
  rstrS "%2e%2e%5c"]

/-- `WafGuard.commandInjectionPatterns`, in source order. -/
def commandInjectionPatterns : List RE := [
  altL [.lit '|', .lit '&', .lit ';', .lit '$', .lit bq],  -- (\||\&|\;|\$|\`)
  altL [rstrS "nc ", rstrS "ncat ", rstrS "netcat ", rstrS "curl ", rstrS "wget "],
  altL [rstrS "chmod ", rstrS "chown ", rstrS "rm ", rstrS "mv ", rstrS "cp "]]

/-- `WafGuard.ldapInjectionPatterns`, in source order. -/
def ldapInjectionPatterns : List RE := [
  -- (\)|(\%29))((\&)|(\%26))((\w)|(\%\w))
  .cat (altL [.lit ')', rstrS "%29"]) (.cat (altL [.lit '&', rstrS "%26"])
    (altL [.wordc, .cat (.lit '%') .wordc])),
  -- (\)|(\%29))((\|)|(\%7C))((\w)|(\%\w))
  .cat (altL [.lit ')', rstrS "%29"]) (.cat (altL [.lit '|', rstrS "%7c"])
    (altL [.wordc, .cat (.lit '%') .wordc]))]

/-- `WafGuard.nosqlInjectionPatterns`, in source order. -/
def nosqlInjectionPatterns : List RE :=
  [rstrS "$where", rstrS "$ne", rstrS "$gt", rstrS "$lt", rstrS "$regex", rstrS "$or", rstrS "$and"]

/-- Attack category reported by a matching pattern set. -/
inductive Category : Type where
  | sql | xss | pathTraversal | commandInjection | ldap | nosql
deriving Repr, DecidableEq

/-- The mutable `lastIndex` of each pattern object of the guard
instance, one list per pattern array (all start at `0`). -/
structure WafState : Type where
  sqlLI : List Nat
  xssLI : List Nat
  pathLI : List Nat
  cmdLI : List Nat
  ldapLI : List Nat
  nosqlLI : List Nat
deriving Repr, DecidableEq

/-- A freshly constructed `WafGuard` (all `lastIndex`es zero). -/
def wafInit : WafState :=
  ⟨List.replicate 6 0, List.replicate 9 0, List.replicate 6 0,
   List.replicate 3 0, List.replicate 2 0, List.replicate 7 0⟩

/-- `WafGuard.matchesPatterns`: `patterns.some(p => p.test(input))` —
tests each stateful pattern in order, short-circuiting on the first
success (patterns after it keep their `lastIndex` untouched). -/
def matchesPatternsG : List RE → List Nat → List Char → Bool × List Nat
  | [], lis, _ => (false, lis)
  | _ :: _, [], _ => (false, [])
  | p :: ps, li :: lis, s =>
    let (b, li2) := gTest p li s
    if b then (true, li2 :: lis)
    else
      let (b2, lis2) := matchesPatternsG ps lis s
      (b2, li2 :: lis2)

/-- The category checks of `WafGuard.scanString` applied to an already
decoded (and lowercased) string, in source order, each throw
short-circuiting the rest. -/
def scanCategories (st : WafState) (d : List Char) : Option Category × WafState :=
  let (b1, l1) := matchesPatternsG sqlInjectionPatterns st.sqlLI d
  let st := { st with sqlLI := l1 }
  if b1 then (some .sql, st) else
  let (b2, l2) := matchesPatternsG xssPatterns st.xssLI d
  let st := { st with xssLI := l2 }
  if b2 then (some .xss, st) else
  let (b3, l3) := matchesPatternsG pathTraversalPatterns st.pathLI d
  let st := { st with pathLI := l3 }
  if b3 then (some .pathTraversal, st) else
  let (b4, l4) := matchesPatternsG commandInjectionPatterns st.cmdLI d
  let st := { st with cmdLI := l4 }
  if b4 then (some .commandInjection, st) else
  let (b5, l5) := matchesPatternsG ldapInjectionPatterns st.ldapLI d
  let st := { st with ldapLI := l5 }
  if b5 then (some .ldap, st) else
  let (b6, l6) := matchesPatternsG nosqlInjectionPatterns st.nosqlLI d
  let st := { st with nosqlLI := l6 }
  if b6 then (some .nosql, st) else (none, st)

/-- Value of a hexadecimal digit. -/
def hexVal (c : Char) : Option Nat :=
  if 48 ≤ c.toNat ∧ c.toNat ≤ 57 then some (c.toNat - 48)
  else if 97 ≤ c.toNat ∧ c.toNat ≤ 102 then some (c.toNat - 87)
  else if 65 ≤ c.toNat ∧ c.toNat ≤ 70 then some (c.toNat - 55)
  else none

/-- ECMAScript `decodeURIComponent`: percent-escapes decode to bytes
that must form valid UTF-8 sequences; any malformed escape (missing or
non-hex digits, invalid lead or continuation byte, overlong or
surrogate or out-of-range code point) throws, modelled as `none`. -/
def decodeURIComponentE : List Char → Option (List Char)
  | [] => some []
  | '%' :: h1 :: h2 :: rest =>
    match hexVal h1, hexVal h2 with
    | some a, some b =>
      let byte := 16 * a + b
      if byte < 128 then (decodeURIComponentE rest).map (Char.ofNat byte :: ·)
      else if 194 ≤ byte ∧ byte ≤ 223 then
        match rest with
        | '%' :: g1 :: g2 :: rest2 =>
          match hexVal g1, hexVal g2 with
          | some a2, some b2 =>
            let byte2 := 16 * a2 + b2
            if 128 ≤ byte2 ∧ byte2 ≤ 191 then
              (decodeURIComponentE rest2).map (Char.ofNat ((byte - 192) * 64 + (byte2 - 128)) :: ·)
            else none
          | _, _ => none
        | _ => none
      else if 224 ≤ byte ∧ byte ≤ 239 then
        match rest with
        | '%' :: g1 :: g2 :: '%' :: g3 :: g4 :: rest3 =>
          match hexVal g1, hexVal g2, hexVal g3, hexVal g4 with
          | some a2, some b2, some a3, some b3 =>
            let byte2 := 16 * a2 + b2
            let byte3 := 16 * a3 + b3
            if 128 ≤ byte2 ∧ byte2 ≤ 191 ∧ 128 ≤ byte3 ∧ byte3 ≤ 191 then
              let cp := (byte - 224) * 4096 + (byte2 - 128) * 64 + (byte3 - 128)
              if 2048 ≤ cp ∧ (cp < 55296 ∨ 57343 < cp) then
                (decodeURIComponentE rest3).map (Char.ofNat cp :: ·)
              else none
            else none
          | _, _, _, _ => none
        | _ => none
      else if 240 ≤ byte ∧ byte ≤ 244 then
        match rest with
        | '%' :: g1 :: g2 :: '%' :: g3 :: g4 :: '%' :: g5 :: g6 :: rest4 =>
          match hexVal g1, hexVal g2, hexVal g3, hexVal g4, hexVal g5, hexVal g6 with
          | some a2, some b2, some a3, some b3, some a4, some b4 =>
            let byte2 := 16 * a2 + b2
            let byte3 := 16 * a3 + b3
            let byte4 := 16 * a4 + b4
            if 128 ≤ byte2 ∧ byte2 ≤ 191 ∧ 128 ≤ byte3 ∧ byte3 ≤ 191 ∧ 128 ≤ byte4 ∧ byte4 ≤ 191 then
              let cp := (byte - 240) * 262144 + (byte2 - 128) * 4096 + (byte3 - 128) * 64 + (byte4 - 128)
              if 65536 ≤ cp ∧ cp ≤ 1114111 then
                (decodeURIComponentE rest4).map (Char.ofNat cp :: ·)
              else none
            else none
          | _, _, _, _, _, _ => none
        | _ => none
      else none
    | _, _ => none
  | '%' :: _ :: [] => none
  | '%' :: [] => none
  | c :: cs => (decodeURIComponentE cs).map (c :: ·)

/-- Strip `pat` from the front of a list, returning the remainder. -/
def stripPre : List Char → List Char → Option (List Char)
  | [], s => some s
  | _ :: _, [] => none
  | p :: ps, c :: cs => if c = p then stripPre ps cs else none

/-- Fuelled global substring replacement (left-to-right,
non-overlapping), the meaning of `String.prototype.replace` with a
global literal pattern. -/
def replaceAllF (pat repl : List Char) : Nat → List Char → List Char
  | 0, s => s
  | Nat.succ n, s =>
    match s with
    | [] => []
    | c :: cs =>
      match stripPre pat s with
      | some rest => repl ++ replaceAllF pat repl n rest
      | none => c :: replaceAllF pat repl n cs

/-- Global literal replacement; the input length is enough fuel since
every step consumes at least one character (`pat` is nonempty). -/
def replaceAll (pat repl s : List Char) : List Char :=
  replaceAllF pat repl s.length s

/-- The HTML-entity replacement chain of `WafGuard.decodeInput`,
applied in source order. -/
def entityDecode (s : List Char) : List Char :=
  let s1 := replaceAll "&lt;".data "<".data s
  let s2 := replaceAll "&gt;".data ">".data s1
  let s3 := replaceAll "&quot;".data "\"".data s2
  let s4 := replaceAll "&#x27;".data [qc] s3
  let s5 := replaceAll "&#x2F;".data "/".data s4
  replaceAll "&amp;".data "&".data s5

/-- `WafGuard.decodeInput`: URL-decode then entity-decode; if the
URL-decode throws, the catch returns the raw input unchanged. -/
def decodeInput (input : List Char) : List Char :=
  match decodeURIComponentE input with
  | some d => entityDecode d
  | none => input

namespace WafGuard

/-- `WafGuard.scanString`: empty input returns without scanning;
otherwise the decoded input is tested against the six category pattern
sets in order (the `i` flag realised by lowercasing). -/
def scanString (st : WafState) (input : List Char) : Option Category × WafState :=
  if input = [] then (none, st)
  else scanCategories st (lowerL (decodeInput input))

end WafGuard

-- A request value as walked by `WafGuard.scanObject` (string leaves,
-- objects with string keys; numbers/booleans/null are not scanned).
mutual
inductive JVal : Type where
  | str : String → JVal
  | prim : JVal
  | obj : JObjList → JVal
inductive JObjList : Type where
  | nil : JObjList
  | cons : String → JVal → JObjList → JObjList
end

namespace WafGuard

-- `WafGuard.scanObject`: strings are scanned directly; objects have
-- every key scanned as a string and every value walked recursively; the
-- first throw aborts the walk.
mutual
def scanObject (st : WafState) (v : JVal) (loc : String) : Option (Category × String) × WafState :=
  match v with
  | .str s =>
    let (c, st2) := scanString st s.data
    (c.map (fun cat => (cat, loc)), st2)
  | .prim => (none, st)
  | .obj l => scanObjList st l loc
def scanObjList (st : WafState) (l : JObjList) (loc : String) : Option (Category × String) × WafState :=
  match l with
  | .nil => (none, st)
  | .cons k v rest =>
    let (c1, st1) := scanString st k.data
    match c1 with
    | some cat => (some (cat, loc ++ " key"), st1)
    | none =>
      let (c2, st2) := scanObject st1 v loc
      match c2 with
      | some hit => (some hit, st2)
      | none => scanObjList st2 rest loc
end

/-- `WafGuard.scanHeaders`, first loop: the `user-agent`, `referer`
and `origin` headers are scanned when present. -/
def scanNamedHeaders (st : WafState) (headers : List (String × String)) :
    List String → Option (Category × String) × WafState
  | [] => (none, st)
  | name :: rest =>
    match lookupA name headers with
    | some v =>
      let (c, st2) := scanString st v.data
      match c with
      | some cat => (some (cat, "header " ++ name), st2)
      | none => scanNamedHeaders st2 headers rest
    | none => scanNamedHeaders st headers rest

/-- `WafGuard.scanHeaders`, second loop: every header whose lowercased
name starts with `x-` has its value scanned. -/
def scanXHeaders (st : WafState) : List (String × String) → Option (Category × String) × WafState
  | [] => (none, st)
  | (name, v) :: rest =>
    if startsWithL (lowerL name.data) "x-".data then
      let (c, st2) := WafGuard.scanString st v.data
      match c with
      | some cat => (some (cat, "header " ++ name), st2)
      | none => scanXHeaders st2 rest
    else scanXHeaders st rest

/-- `WafGuard.scanHeaders`: named headers then `x-` headers. -/
def scanHeaders (st : WafState) (headers : List (String × String)) :
    Option (Category × String) × WafState :=
  let (c, st2) := scanNamedHeaders st headers ["user-agent", "referer", "origin"]
  match c with
  | some hit => (some hit, st2)
  | none => scanXHeaders st2 headers

end WafGuard

/-- An uploaded file as checked by `WafGuard.checkFileUploads`. -/
structure WafFile : Type where
  originalname : String
  size : Int

/-- The suffix of `s` starting at the last occurrence of a dot. -/
def lastDotSuffix : List Char → Option (List Char)
  | [] => none
  | c :: cs =>
    match lastDotSuffix cs with
    | some s => some s
    | none => if c = '.' then some (c :: cs) else none

namespace WafGuard

/-- `originalname.toLowerCase().slice(originalname.lastIndexOf('.'))`:
the extension from the last dot; with no dot, `slice(-1)` yields the
last character. -/
def extOf (name : List Char) : List Char :=
  match lastDotSuffix (lowerL name) with
  | some s => s
  | none => (lowerL name).drop (name.length - 1)

/-- `WafGuard.checkFileUploads`: disallowed extensions and the 10 MB
size ceiling; the first offending file throws. -/
def checkFileUploads : List WafFile → Bool
  | [] => false
  | f :: rest =>
    let ext := extOf f.originalname.data
    if ([".exe", ".bat", ".cmd", ".com", ".pif", ".scr", ".vbs", ".js"].map String.data).contains ext
    then true
    else if f.size > 10 * 1024 * 1024 then true
    else checkFileUploads rest

/-- `WafGuard.checkRequestSize`: the declared content length against
the 1 MB body ceiling. -/
def checkRequestSize (contentLength : Option Int) : Bool :=
  match contentLength with
  | some n => n > 1024 * 1024
  | none => false

end WafGuard

/-- The parts of a request inspected by `WafGuard.canActivate`. -/
structure WafRequest : Type where
  body : Option JVal
  query : Option JVal
  params : Option JVal
  headers : List (String × String)
  files : List WafFile
  contentLength : Option Int

/-- What `WafGuard.canActivate` converts into the generic
`WAF_BLOCKED` 400 response; the category/location detail only ever
reaches the internal log. -/
inductive WafError : Type where
  | hit : Category → String → WafError
  | fileBlocked : WafError
  | bodyTooLarge : WafError
deriving Repr, DecidableEq

namespace WafGuard

/-- `WafGuard.canActivate`: the per-route opt-out, then body, query,
params, headers, file uploads and request size, each throw
short-circuiting into the generic block response. -/
def canActivate (disabled : Bool) (req : WafRequest) (st : WafState) :
    Option WafError × WafState :=
  if disabled then (none, st)
  else
    let (c1, st1) :=
      match req.body with
      | some b => scanObject st b "request body"
      | none => (none, st)
    match c1 with
    | some (cat, loc) => (some (.hit cat loc), st1)
    | none =>
      let (c2, st2) :=
        match req.query with
        | some q => scanObject st1 q "query parameters"
        | none => (none, st1)
      match c2 with
      | some (cat, loc) => (some (.hit cat loc), st2)
      | none =>
        let (c3, st3) :=
          match req.params with
          | some p => scanObject st2 p "URL parameters"
          | none => (none, st2)
        match c3 with
        | some (cat, loc) => (some (.hit cat loc), st3)
        | none =>
          let (c4, st4) := scanHeaders st3 req.headers
          match c4 with
          | some (cat, loc) => (some (.hit cat loc), st4)
          | none =>
            if checkFileUploads req.files then (some .fileBlocked, st4)
            else if checkRequestSize req.contentLength then (some .bodyTooLarge, st4)
            else (none, st4)

end WafGuard

/-! ### DDoS protection guard (`ddos-protection.guard.ts`)

Per-client admission control.  The four `Map`/`Set` fields of the
guard plus the ad-hoc global `signatures_<ip>` arrays form the state;
`setTimeout` decrements and the periodic cleanup sweep are explicit
transition-system operations. -/

/-- The mutable state of a `DdosProtectionGuard` instance. -/
structure DdosState : Type where
  ipConnectionCount : List (String × Int)
  ipRequestHistory : List (String × List Int)
  suspiciousIPs : List String
  blacklistedIPs : List String
  /-- the global `signatures_<ip>` arrays used by `analyzeRequestPattern` -/
  signatures : List (String × List String)
deriving Repr, DecidableEq

/-- A freshly constructed guard: empty state except that the
constructor blacklists `0.0.0.0`. -/
def ddosInit : DdosState := ⟨[], [], [], ["0.0.0.0"], []⟩

/-- `maxConcurrentConnections = 100`. -/
def maxConcurrentConnections : Int := 100

/-- `maxRequestsPerMinute = 300`. -/
def maxRequestsPerMinute : Nat := 300

/-- `suspiciousRequestsThreshold = 200`. -/
def suspiciousRequestsThreshold : Nat := 200

/-- `timeWindow = 60 * 1000` ms. -/
def timeWindow : Int := 60 * 1000

/-- Retention age used by `cleanup` (10 minutes, in ms). -/
def cleanupAge : Int := 10 * 60 * 1000

/-- `Set.add`: append only when absent. -/
def addSet (x : String) (l : List String) : List String :=
  if l.contains x then l else l ++ [x]

/-- The request data consulted by the DDoS guard. -/
structure DdosRequest : Type where
  headers : List (String × String)
  /-- collapses `connection?.remoteAddress || socket?.remoteAddress || ip` -/
  remoteAddress : Option String
  method : String
  path : String
  url : String
deriving Repr, DecidableEq

/-- A header value, with the JS truthiness test (`undefined` and the
empty string are both falsy). -/
def hdr (name : String) (headers : List (String × String)) : Option String :=
  match lookupA name headers with
  | some v => if v.data = [] then none else some v
  | none => none

/-- JS `String.prototype.trim` (ASCII whitespace). -/
def trimL (s : List Char) : List Char :=
  ((s.dropWhile isSpaceChar).reverse.dropWhile isSpaceChar).reverse

namespace DdosProtectionGuard

/-- `DdosProtectionGuard.getClientIP`: first trustworthy header
(`x-forwarded-for` first segment trimmed, then `x-real-ip`, then
`cf-connecting-ip`), then the transport address, else `unknown`. -/
def getClientIP (req : DdosRequest) : String :=
  match hdr "x-forwarded-for" req.headers with
  | some xff => String.mk (trimL (xff.data.takeWhile (· ≠ ',')))
  | none =>
    match hdr "x-real-ip" req.headers with
    | some v => v
    | none =>
      match hdr "cf-connecting-ip" req.headers with
      | some v => v
      | none => req.remoteAddress.getD "unknown"

/-- `DdosProtectionGuard.checkConcurrentConnections`: throw when the
counter has reached the maximum, otherwise increment it (the paired
decrement is scheduled via `setTimeout` and modelled as the separate
`connectionDecrement` operation). -/
def checkConcurrentConnections (ip : String) (st : DdosState) : Except DdosState DdosState :=
  let currentConnections := (lookupA ip st.ipConnectionCount).getD 0
  if currentConnections ≥ maxConcurrentConnections then .error st
  else .ok { st with ipConnectionCount := setA ip (currentConnections + 1) st.ipConnectionCount }

/-- The `setTimeout` callback scheduled by
`checkConcurrentConnections`: decrement, but only when positive. -/
def connectionDecrement (ip : String) (st : DdosState) : DdosState :=
  let connections := (lookupA ip st.ipConnectionCount).getD 0
  if connections > 0 then
    { st with ipConnectionCount := setA ip (connections - 1) st.ipConnectionCount }
  else st

/-- `DdosProtectionGuard.checkRequestRate`: drop window entries older
than `timeWindow`; at or above the limit, mark suspicious when also at
or above the threshold and throw; otherwise append the current
timestamp. -/
def checkRequestRate (ip : String) (now : Int) (st : DdosState) : Except DdosState DdosState :=
  let requests := (lookupA ip st.ipRequestHistory).getD []
  let recentRequests := requests.filter (fun ts => now - ts < timeWindow)
  if recentRequests.length ≥ maxRequestsPerMinute then
    let st2 :=
      if recentRequests.length ≥ suspiciousRequestsThreshold then
        { st with suspiciousIPs := addSet ip st.suspiciousIPs }
      else st
    .error st2
  else .ok { st with ipRequestHistory := setA ip (recentRequests ++ [now]) st.ipRequestHistory }

/-- The bot-signature substrings of `analyzeRequestPattern`. -/
def botSubs : List String :=
  ["bot", "crawler", "spider", "scraper", "curl", "wget", "python", "java"]

/-- The legitimate-crawler allow-list of `analyzeRequestPattern`. -/
def legitimateBotSubs : List String :=
  ["googlebot", "bingbot", "slurp", "duckduckbot", "facebookexternalhit",
   "twitterbot", "linkedinbot"]

/-- `DdosProtectionGuard.generateRequestSignature`:
`method:path:userAgent.substring(0,50)` with the JS `||` fallbacks. -/
def generateRequestSignature (req : DdosRequest) : String :=
  let method := if req.method.data = [] then "UNKNOWN" else req.method
  let path := if req.path.data = [] then req.url else req.path
  let userAgent := (hdr "user-agent" req.headers).getD ""
  method ++ ":" ++ path ++ ":" ++ String.mk (userAgent.data.take 50)

/-- `DdosProtectionGuard.analyzeRequestPattern`: bot user-agents
(unless allow-listed), missing/short user-agents, and more than 20
recent identical request signatures all throw; otherwise the signature
is recorded (capped at the last 100). -/
def analyzeRequestPattern (req : DdosRequest) (ip : String) (st : DdosState) :
    Except DdosState DdosState :=
  let userAgent := ((lookupA "user-agent" req.headers).getD "").data
  let ua := lowerL userAgent
  if botSubs.any (fun p => containsSub ua p.data) &&
     !(legitimateBotSubs.any (fun p => containsSub ua p.data)) then .error st
  else if userAgent.length = 0 ∨ userAgent.length < 10 then .error st
  else
    let requestSignature := generateRequestSignature req
    let recentSignatures := (lookupA ip st.signatures).getD []
    if (recentSignatures.filter (fun s => s = requestSignature)).length > 20 then .error st
    else
      let pushed := recentSignatures ++ [requestSignature]
      let capped := if pushed.length > 100 then pushed.drop (pushed.length - 100) else pushed
      .ok { st with signatures := setA ip capped st.signatures }

/-- `DdosProtectionGuard.checkDistributedAttack`: when more than 20
clients show more than 100 in-window requests, mark them all
suspicious. -/
def checkDistributedAttack (now : Int) (st : DdosState) : DdosState :=
  let recentIPs :=
    (st.ipRequestHistory.filter
      (fun p => (p.2.filter (fun ts => now - ts < timeWindow)).length > 100)).map Prod.fst
  if recentIPs.length > 20 then
    { st with suspiciousIPs := recentIPs.foldl (fun acc i => addSet i acc) st.suspiciousIPs }
  else st

/-- `DdosProtectionGuard.checkSuspiciousBehavior`: the stricter
50-per-window ceiling for already-suspicious clients, then the
distributed-attack heuristic. -/
def checkSuspiciousBehavior (ip : String) (now : Int) (st : DdosState) :
    Except DdosState DdosState :=
  if st.suspiciousIPs.contains ip then
    let requests := (lookupA ip st.ipRequestHistory).getD []
    let recentRequests := requests.filter (fun ts => now - ts < timeWindow)
    if recentRequests.length > 50 then .error st
    else .ok (checkDistributedAttack now st)
  else .ok (checkDistributedAttack now st)

/-- Outcome of `canActivate`: `reject` models the thrown
429 `DDOS_PROTECTION` response. -/
inductive Decision : Type where
  | allow | reject
deriving Repr, DecidableEq

/-- `DdosProtectionGuard.canActivate`: the `disable-ddos` route flag,
then blacklist, concurrent connections, request rate, pattern
analysis and suspicious-behavior checks in order, each throw caught
into a reject.  The third component records whether a connection
decrement was scheduled (the concurrent check passed). -/
def canActivate (disabled : Bool) (req : DdosRequest) (now : Int) (st : DdosState) :
    Decision × DdosState × Bool :=
  if disabled then (.allow, st, false)
  else
    let clientIP := getClientIP req
    if st.blacklistedIPs.contains clientIP then (.reject, st, false)
    else
      match checkConcurrentConnections clientIP st with
      | .error st1 => (.reject, st1, false)
      | .ok st1 =>
        match checkRequestRate clientIP now st1 with
        | .error st2 => (.reject, st2, true)
        | .ok st2 =>
          match analyzeRequestPattern req clientIP st2 with
          | .error st3 => (.reject, st3, true)
          | .ok st3 =>
            match checkSuspiciousBehavior clientIP now st3 with
            | .error st4 => (.reject, st4, true)
            | .ok st4 => (.allow, st4, true)

/-- `DdosProtectionGuard.cleanup`: filter each request window by the
retention age and delete empty windows, delete non-positive connection
counters, clear the suspicious set, leave the blacklist (and the
signature arrays) alone. -/
def cleanup (now : Int) (st : DdosState) : DdosState :=
  { ipRequestHistory :=
      (st.ipRequestHistory.map
        (fun p => (p.1, p.2.filter (fun ts => now - ts < cleanupAge)))).filter
        (fun p => !p.2.isEmpty)
    ipConnectionCount := st.ipConnectionCount.filter (fun p => !(p.2 ≤ 0 : Bool))
    suspiciousIPs := []
    blacklistedIPs := st.blacklistedIPs
    signatures := st.signatures }

/-- `DdosProtectionGuard.blacklistIP`. -/
def blacklistIP (ip : String) (st : DdosState) : DdosState :=
  { st with blacklistedIPs := addSet ip st.blacklistedIPs }

/-- `DdosProtectionGuard.removeFromBlacklist`. -/
def removeFromBlacklist (ip : String) (st : DdosState) : DdosState :=
  { st with blacklistedIPs := st.blacklistedIPs.filter (fun x => x ≠ ip) }

end DdosProtectionGuard

/-- The events that touch the guard state: an inbound request, a
scheduled connection decrement firing, a cleanup sweep, and the admin
blacklist calls. -/
inductive DdosOp : Type where
  | request (disabled : Bool) (req : DdosRequest) (now : Int)
  | connectionTimeout (ip : String)
  | cleanupSweep (now : Int)
  | adminBlacklist (ip : String)
  | adminUnblacklist (ip : String)

/-- One step of the guard state machine. -/
def ddosStep (st : DdosState) : DdosOp → DdosState
  | .request d r n => (DdosProtectionGuard.canActivate d r n st).2.1
  | .connectionTimeout ip => DdosProtectionGuard.connectionDecrement ip st
  | .cleanupSweep n => DdosProtectionGuard.cleanup n st
  | .adminBlacklist ip => DdosProtectionGuard.blacklistIP ip st
  | .adminUnblacklist ip => DdosProtectionGuard.removeFromBlacklist ip st

/-- The guard state after a sequence of operations from construction. -/
def ddosRun (ops : List DdosOp) : DdosState := ops.foldl ddosStep ddosInit

/-! ### Cache service (`cache.service.ts`)

Dual-tier cache: an optional Redis primary (`redis = some r` models
`redisClient !== null && isConnected`) and the always-populated
in-memory fallback `Map`.  `JSON.stringify`/`JSON.parse` round-trips
are modelled as the identity on an opaque value type.  Each operation
takes a `redisFails` flag: `true` means the awaited Redis command
throws on this call, landing in the operation's `catch` block. -/

/-- `CacheItem<T>` of `cache.service.ts`. -/
structure CacheItem (V : Type _) : Type _ where
  data : V
  timestamp : Int
  /-- seconds -/
  ttl : Int
deriving Repr, DecidableEq

/-- The Redis primary: prefixed key ↦ (stored value, expiry in ms),
the expiry as installed by `SETEX`. -/
structure RedisState (V : Type _) : Type _ where
  store : List (String × (V × Int))
deriving Repr, DecidableEq

/-- The state of a `CacheService` instance. -/
structure CacheState (V : Type _) : Type _ where
  redis : Option (RedisState V)
  memoryCache : List (String × CacheItem V)
deriving Repr, DecidableEq

/-- `CacheService.prefixKey`. -/
def prefixKey (key : String) : String := "api-gateway:" ++ key

/-- `SETEX key ttl value`: store with an absolute expiry `ttl` seconds
from now. -/
def redisSetex {V : Type _} (r : RedisState V) (k : String) (ttlSec : Int) (v : V)
    (now : Int) : RedisState V :=
  ⟨setA k (v, now + ttlSec * 1000) r.store⟩

/-- `GET k`: a value still before its expiry, else nil. -/
def redisGetI {V : Type _} (r : RedisState V) (k : String) (now : Int) : Option V :=
  match lookupA k r.store with
  | some (v, exp) => if now < exp then some v else none
  | none => none

/-- `const finalTtl = ttl || this.DEFAULT_TTL` (JS truthiness: an
absent or zero `ttl` falls back to the 300 s default). -/
def finalTtlOf (ttl : Option Int) : Int :=
  match ttl with
  | some t => if t = 0 then 300 else t
  | none => 300

namespace CacheService

/-- The memory-tier half of `CacheService.get`: manual TTL validation,
with lazy eviction of an expired entry. -/
def memoryGet {V : Type _} (st : CacheState V) (now : Int) (key : String) :
    Option V × CacheState V :=
  match lookupA key st.memoryCache with
  | some item =>
    if now - item.timestamp ≤ item.ttl * 1000 then (some item.data, st)
    else (none, { st with memoryCache := eraseA key st.memoryCache })
  | none => (none, st)

/-- `CacheService.get`: try Redis when configured and connected (a
thrown Redis command lands in the catch, which returns `null`), then
the memory fallback. -/
def get {V : Type _} (st : CacheState V) (now : Int) (key : String) (redisFails : Bool) :
    Option V × CacheState V :=
  match st.redis with
  | some r =>
    if redisFails then (none, st)
    else
      match redisGetI r (prefixKey key) now with
      | some v => (some v, st)
      | none => memoryGet st now key
  | none => memoryGet st now key

/-- `CacheService.set`: `SETEX` on the primary when available, and the
memory tier is written in every path — including the catch taken when
the primary write throws — with `true` reported in all of them. -/
def set {V : Type _} (st : CacheState V) (now : Int) (key : String) (v : V)
    (ttl : Option Int) (redisFails : Bool) : Bool × CacheState V :=
  let finalTtl := finalTtlOf ttl
  let mem := setA key ⟨v, now, finalTtl⟩ st.memoryCache
  match st.redis with
  | some r =>
    if redisFails then (true, { st with memoryCache := mem })
    else (true, { redis := some (redisSetex r (prefixKey key) finalTtl v now),
                  memoryCache := mem })
  | none => (true, { st with memoryCache := mem })

end CacheService

/-- The suffixes of `k` obtained by deleting a (possibly empty) prefix
of non-newline characters — exactly the remainders a regex `.*` can
leave. -/
def nlSuffixes : List Char → List (List Char)
  | [] => [[]]
  | c :: ks => (c :: ks) :: (if c = '\n' then [] else nlSuffixes ks)

/-- All suffixes of `k` (the remainders a Redis glob `*` can leave). -/
def allSuffixes : List Char → List (List Char)
  | [] => [[]]
  | c :: ks => (c :: ks) :: allSuffixes ks

/-- The matching function of the anchored regex that
`CacheService.matchesPattern` compiles:
`^ pattern.replace(/\*/g, ".*").replace(/\?/g, ".") $` — `*` becomes
`.*` (a run of non-newline characters), `?` and a literal `.` become
the regex wildcard `.` (any non-newline character), every other
character of the patterns used in this development is matched
literally (regex metacharacters other than `.` are not modelled). -/
def globMatch : List Char → List Char → Bool
  | [], k => k.isEmpty
  | p :: ps, k =>
    if p = '*' then (nlSuffixes k).any (fun t => globMatch ps t)
    else
      match k with
      | [] => false
      | c :: ks =>
        (if p = '?' ∨ p = '.' then (c ≠ '\n' : Bool) else (p = c : Bool)) && globMatch ps ks

/-- Redis `KEYS` glob matching (`*` any run, `?` one character, other
characters literal; character classes and escapes are not used by this
code base and are not modelled). -/
def redisGlobMatch : List Char → List Char → Bool
  | [], k => k.isEmpty
  | p :: ps, k =>
    if p = '*' then (allSuffixes k).any (fun t => redisGlobMatch ps t)
    else
      match k with
      | [] => false
      | c :: ks => (p = '?' || p = c) && redisGlobMatch ps ks

namespace CacheService

/-- `CacheService.matchesPattern`. -/
def matchesPattern (key pattern : String) : Bool :=
  globMatch pattern.data key.data

/-- `CacheService.deletePattern`: on the primary, `KEYS` with the
prefixed pattern then `DEL` (its return value is the number of keys
removed); then every memory key matching the compiled pattern is
deleted and counted.  A thrown Redis command lands in the catch, which
returns `0` without touching the memory tier. -/
def deletePattern {V : Type _} (st : CacheState V) (pattern : String) (redisFails : Bool) :
    Nat × CacheState V :=
  match st.redis with
  | some r =>
    if redisFails then (0, st)
    else
      let ks := (r.store.map Prod.fst).filter
        (fun k => redisGlobMatch (prefixKey pattern).data k.data)
      let r2 : RedisState V :=
        ⟨r.store.filter (fun p => !redisGlobMatch (prefixKey pattern).data p.1.data)⟩
      let memoryKeys := (st.memoryCache.map Prod.fst).filter
        (fun k => matchesPattern k pattern)
      (ks.length + memoryKeys.length,
        { redis := some r2,
          memoryCache := memoryKeys.foldl (fun m k => eraseA k m) st.memoryCache })
  | none =>
    let memoryKeys := (st.memoryCache.map Prod.fst).filter
      (fun k => matchesPattern k pattern)
    (memoryKeys.length,
      { st with memoryCache := memoryKeys.foldl (fun m k => eraseA k m) st.memoryCache })

end CacheService

/-- The glob semantics named by the specification, verbatim:
`*` matches any run of characters, `?` matches a single character, and
the whole pattern must match the whole key (anchored full match).
Modelled from the spec sentence of §4.4 for comparison with the code's
compiled-regex matcher. -/
inductive GlobSpec : List Char → List Char → Prop where
  | nil : GlobSpec [] []
  | star_empty {ps ks} : GlobSpec ps ks → GlobSpec ('*' :: ps) ks
  | star_cons {ps ks c} : GlobSpec ('*' :: ps) ks → GlobSpec ('*' :: ps) (c :: ks)
  | one {ps ks c} : GlobSpec ps ks → GlobSpec ('?' :: ps) (c :: ks)
  | lit {ps ks c} : c ≠ '*' → c ≠ '?' → GlobSpec ps ks → GlobSpec (c :: ps) (c :: ks)

/-! ### Security monitoring middleware (`security-monitoring.middleware.ts`) -/

/-- The `severity` field of a `SecurityEvent`. -/
inductive Severity : Type where
  | low | medium | high | critical
deriving Repr, DecidableEq

/-- The `type` field of a `SecurityEvent`. -/
inductive EventType : Type where
  | wafBlock | ddosBlock | rateLimit | suspiciousActivity | authFailure
deriving Repr, DecidableEq

/-- A `SecurityEvent` record (the free-form `details` payload carries
no behaviour and is omitted). -/
structure SecurityEvent : Type where
  etype : EventType
  ip : String
  userAgent : String
  endpoint : String
  /-- ms since epoch (`Date` modelled by its time value) -/
  timestamp : Int
  severity : Severity
deriving Repr, DecidableEq

/-- `maxEvents = 10000`. -/
def maxEvents : Nat := 10000

namespace SecurityMonitoringMiddleware

/-- `SecurityMonitoringMiddleware.logSecurityEvent` restricted to the
stored array: push, then `splice(0, length - maxEvents)` drops the
oldest entries past the capacity.  (The severity-levelled logging and
the CRITICAL alert are I/O and carry no state.) -/
def logSecurityEvent (events : List SecurityEvent) (event : SecurityEvent) :
    List SecurityEvent :=
  let pushed := events ++ [event]
  if maxEvents < pushed.length then pushed.drop (pushed.length - maxEvents) else pushed

/-- `SecurityMonitoringMiddleware.cleanupOldEvents`: keep exactly the
events with `timestamp > now - 24h`. -/
def cleanupOldEvents (now : Int) (events : List SecurityEvent) : List SecurityEvent :=
  events.filter (fun e => now - 24 * 60 * 60 * 1000 < e.timestamp)

end SecurityMonitoringMiddleware

/-! ### Auxiliary definitions and concrete fixtures -/

/-- The state carried by either side of an `Except`-modelled check
(the guard methods mutate `this` before throwing, so the error side
also carries a state). -/
def exSt : Except DdosState DdosState → DdosState
  | .ok s => s
  | .error s => s

/-- Pattern characters covered by the glob model: word characters and
`:` are regex-literal, plus the two wildcards.  (Characters that are
regex metacharacters, such as `.`, are outside the modelled
fragment.) -/
def globSafeChar (c : Char) : Bool :=
  isWordChar c || c = ':' || c = '*' || c = '?'

/-- The connection-counter invariant claimed in the spec: every
per-client counter stays within `[0, maxConcurrentConnections]`. -/
def ConnOK (st : DdosState) : Prop :=
  ∀ p ∈ st.ipConnectionCount, 0 ≤ p.2 ∧ p.2 ≤ maxConcurrentConnections

/-- The XSS probe named by the spec. -/
def xssPayload : String := "<script>alert(1)</script>"

/-- A request whose body is the raw XSS probe string (for example a
text-body POST), with no query, params, headers or files. -/
def xssRequest : WafRequest := ⟨some (.str xssPayload), none, none, [], [], none⟩

/-- A benign request from client `1.2.3.4` (ordinary browser
user-agent, well under every limit). -/
def benignRequest : DdosRequest :=
  ⟨[("x-forwarded-for", "1.2.3.4"), ("user-agent", "Mozilla/5.0 TestBrowser")],
   none, "GET", "/tasks", "/tasks"⟩

/-- The same benign request as sent by `0.0.0.0`, which the guard
constructor blacklists. -/
def blacklistedRequest : DdosRequest :=
  ⟨[("x-forwarded-for", "0.0.0.0"), ("user-agent", "Mozilla/5.0 TestBrowser")],
   none, "GET", "/tasks", "/tasks"⟩

/-- A guard state in which client `7.7.7.7` has exactly 200 requests
inside the current window and is not suspicious. -/
def rate200State : DdosState :=
  ⟨[], [("7.7.7.7", List.replicate 200 (0 : Int))], [], ["0.0.0.0"], []⟩

/-- A memory cache item used by the cache fixtures. -/
def natItem : CacheItem Nat := ⟨7, 0, 300⟩

/-- The store of the spec's invalidation example: keys
`user:1`, `user:2`, `task:1`, memory tier only (Redis not
configured). -/
def globStore : CacheState Nat :=
  ⟨none, [("user:1", natItem), ("user:2", natItem), ("task:1", natItem)]⟩

/-- An event recorded at time `0` (so exactly 24 h old at
`now = 86400000`). -/
def bdryEvent : SecurityEvent := ⟨.wafBlock, "1.2.3.4", "ua", "/graphql", 0, .high⟩

/-! ## Lemmas about the association-list operations -/

theorem lookupA_setA_self {β : Type _} (k : String) (v : β) (l : List (String × β)) :
    lookupA k (setA k v l) = some v := by
  induction l with
  | nil => simp [setA, lookupA]
  | cons hd tl ih =>
    obtain ⟨a, b⟩ := hd
    by_cases h : a = k
    · simp [setA, h, lookupA]
    · simp [setA, h, lookupA, ih]

theorem lookupA_setA_ne {β : Type _} {k k' : String} (h : k' ≠ k) (v : β)
    (l : List (String × β)) : lookupA k' (setA k v l) = lookupA k' l := by
  induction l with
  | nil =>
    simp only [setA, lookupA]
    rw [if_neg (fun h2 => h h2.symm)]
  | cons hd tl ih =>
    obtain ⟨a, b⟩ := hd
    by_cases ha : a = k
    · subst ha
      simp only [setA, if_pos rfl, lookupA]
      rw [if_neg (fun h2 => h h2.symm), if_neg (fun h2 => h h2.symm)]
    · simp only [setA, if_neg ha, lookupA]
      by_cases ha2 : a = k'
      · rw [if_pos ha2, if_pos ha2]
      · rw [if_neg ha2, if_neg ha2, ih]

theorem mem_of_lookupA {β : Type _} {k : String} {v : β} {l : List (String × β)}
    (h : lookupA k l = some v) : (k, v) ∈ l := by
  induction l with
  | nil => simp [lookupA] at h
  | cons hd tl ih =>
    obtain ⟨a, b⟩ := hd
    by_cases ha : a = k
    · subst ha
      simp [lookupA] at h
      simp [h]
    · simp [lookupA, ha] at h
      simp [ih h]

theorem lookupA_eq_none {β : Type _} {k : String} {l : List (String × β)}
    (h : k ∉ l.map Prod.fst) : lookupA k l = none := by
  induction l with
  | nil => rfl
  | cons hd tl ih =>
    obtain ⟨a, b⟩ := hd
    simp only [List.map_cons, List.mem_cons, not_or] at h
    simp only [lookupA]
    rw [if_neg (fun h2 => h.1 h2.symm), ih h.2]

theorem mem_setA {β : Type _} {p : String × β} {k : String} {v : β} {l : List (String × β)}
    (h : p ∈ setA k v l) : p = (k, v) ∨ p ∈ l := by
  induction l with
  | nil => simpa [setA] using h
  | cons hd tl ih =>
    obtain ⟨a, b⟩ := hd
    by_cases ha : a = k
    · simp [setA, ha] at h
      rcases h with h | h
      · exact .inl (by simp [h])
      · exact .inr (by simp [h])
    · simp [setA, ha] at h
      rcases h with h | h
      · exact .inr (by simp [h])
      · rcases ih h with h2 | h2
        · exact .inl h2
        · exact .inr (by simp [h2])

theorem map_fst_setA {β : Type _} (k : String) (v : β) (l : List (String × β)) {x : String}
    (h : x ∈ (setA k v l).map Prod.fst) : x = k ∨ x ∈ l.map Prod.fst := by
  rcases List.mem_map.mp h with ⟨p, hp, rfl⟩
  rcases mem_setA hp with h2 | h2
  · exact .inl (by rw [h2])
  · exact .inr (List.mem_map.mpr ⟨p, h2, rfl⟩)

theorem nodup_setA {β : Type _} (k : String) (v : β) {l : List (String × β)}
    (h : (l.map Prod.fst).Nodup) : ((setA k v l).map Prod.fst).Nodup := by
  induction l with
  | nil => simp [setA]
  | cons hd tl ih =>
    obtain ⟨a, b⟩ := hd
    simp only [List.map_cons, List.nodup_cons] at h
    by_cases ha : a = k
    · subst ha
      simpa [setA] using h
    · simp only [setA, if_neg ha, List.map_cons, List.nodup_cons]
      exact ⟨fun hx => (map_fst_setA k v tl hx).elim ha h.1, ih h.2⟩

theorem lookupA_eraseA_ne {β : Type _} {k k' : String} (h : k' ≠ k)
    (l : List (String × β)) : lookupA k' (eraseA k l) = lookupA k' l := by
  induction l with
  | nil => rfl
  | cons hd tl ih =>
    obtain ⟨a, b⟩ := hd
    by_cases ha : a = k
    · subst ha
      have e1 : eraseA a ((a, b) :: tl) = tl := by simp [eraseA]
      rw [e1]
      simp only [lookupA]
      rw [if_neg (fun h2 => h h2.symm)]
    · simp only [eraseA, if_neg ha, lookupA, ih]

theorem lookupA_eraseA_self {β : Type _} (k : String) {l : List (String × β)}
    (h : (l.map Prod.fst).Nodup) : lookupA k (eraseA k l) = none := by
  induction l with
  | nil => rfl
  | cons hd tl ih =>
    obtain ⟨a, b⟩ := hd
    simp only [List.map_cons, List.nodup_cons] at h
    by_cases ha : a = k
    · subst ha
      simp only [eraseA, if_pos rfl]
      exact lookupA_eq_none h.1
    · simp only [eraseA, if_neg ha, lookupA]
      exact ih h.2

theorem map_fst_eraseA_sublist {β : Type _} (k : String) (l : List (String × β)) :
    ((eraseA k l).map Prod.fst).Sublist (l.map Prod.fst) := by
  induction l with
  | nil => simp [eraseA]
  | cons hd tl ih =>
    obtain ⟨a, b⟩ := hd
    by_cases ha : a = k
    · simp only [eraseA, if_pos ha, List.map_cons]
      exact (List.Sublist.refl _).cons a
    · simp only [eraseA, if_neg ha, List.map_cons]
      exact ih.cons₂ a

theorem nodup_eraseA {β : Type _} (k : String) {l : List (String × β)}
    (h : (l.map Prod.fst).Nodup) : ((eraseA k l).map Prod.fst).Nodup :=
  (map_fst_eraseA_sublist k l).nodup h

/-! ## Lemmas about the DDoS guard -/

theorem checkRequestRate_counts (ip : String) (now : Int) (st : DdosState) :
    (exSt (DdosProtectionGuard.checkRequestRate ip now st)).ipConnectionCount
      = st.ipConnectionCount := by
  simp only [DdosProtectionGuard.checkRequestRate]
  split
  · split <;> simp [exSt]
  · simp [exSt]

theorem analyzeRequestPattern_counts (req : DdosRequest) (ip : String) (st : DdosState) :
    (exSt (DdosProtectionGuard.analyzeRequestPattern req ip st)).ipConnectionCount
      = st.ipConnectionCount := by
  simp only [DdosProtectionGuard.analyzeRequestPattern]
  split
  · simp [exSt]
  · split
    · simp [exSt]
    · split <;> simp [exSt]

theorem checkDistributedAttack_counts (now : Int) (st : DdosState) :
    (DdosProtectionGuard.checkDistributedAttack now st).ipConnectionCount
      = st.ipConnectionCount := by
  simp only [DdosProtectionGuard.checkDistributedAttack]
  split <;> rfl

theorem checkSuspiciousBehavior_counts (ip : String) (now : Int) (st : DdosState) :
    (exSt (DdosProtectionGuard.checkSuspiciousBehavior ip now st)).ipConnectionCount
      = st.ipConnectionCount := by
  simp only [DdosProtectionGuard.checkSuspiciousBehavior]
  split
  · split
    · simp [exSt]
    · simp [exSt, checkDistributedAttack_counts]
  · simp [exSt, checkDistributedAttack_counts]

theorem ccc_error_eq {ip : String} {st st' : DdosState}
    (h : DdosProtectionGuard.checkConcurrentConnections ip st = .error st') : st' = st := by
  simp only [DdosProtectionGuard.checkConcurrentConnections] at h
  split at h
  · injection h with h2
    exact h2.symm
  · simp at h

theorem ccc_ok_eq {ip : String} {st st' : DdosState}
    (h : DdosProtectionGuard.checkConcurrentConnections ip st = .ok st') :
    (lookupA ip st.ipConnectionCount).getD 0 < maxConcurrentConnections ∧
    st' = { st with ipConnectionCount := setA ip ((lookupA ip st.ipConnectionCount).getD 0 + 1) st.ipConnectionCount } := by
  simp only [DdosProtectionGuard.checkConcurrentConnections] at h
  split at h
  · simp at h
  · next hc =>
    injection h with h2
    exact ⟨lt_of_not_ge hc, h2.symm⟩

theorem connOK_of_counts_eq {st st' : DdosState}
    (he : st'.ipConnectionCount = st.ipConnectionCount) (h : ConnOK st) : ConnOK st' :=
  fun p hp => h p (he ▸ hp)

theorem lookupA_getD_nonneg {st : DdosState} (h : ConnOK st) (ip : String) :
    0 ≤ (lookupA ip st.ipConnectionCount).getD 0 := by
  cases hc : lookupA ip st.ipConnectionCount with
  | none => simp
  | some c => simpa using (h _ (mem_of_lookupA hc)).1

theorem connOK_setA_incr {st : DdosState} {ip : String} (h : ConnOK st)
    (hlt : (lookupA ip st.ipConnectionCount).getD 0 < maxConcurrentConnections) :
    ConnOK { st with ipConnectionCount := setA ip ((lookupA ip st.ipConnectionCount).getD 0 + 1) st.ipConnectionCount } := by
  intro p hp
  rcases mem_setA hp with h2 | h2
  · have h0 := lookupA_getD_nonneg h ip
    rw [h2]
    simp only [maxConcurrentConnections] at hlt ⊢
    constructor <;> omega
  · exact h p h2

theorem connOK_canActivate (d : Bool) (r : DdosRequest) (n : Int) {st : DdosState}
    (h : ConnOK st) : ConnOK ((DdosProtectionGuard.canActivate d r n st).2.1) := by
  simp only [DdosProtectionGuard.canActivate]
  split
  · exact h
  split
  · exact h
  cases hc : DdosProtectionGuard.checkConcurrentConnections
      (DdosProtectionGuard.getClientIP r) st with
  | error st1 =>
    exact connOK_of_counts_eq (by rw [ccc_error_eq hc]) h
  | ok st1 =>
    obtain ⟨hlt, he⟩ := ccc_ok_eq hc
    have h1 : ConnOK st1 := he ▸ connOK_setA_incr h hlt
    dsimp only
    cases hr : DdosProtectionGuard.checkRequestRate (DdosProtectionGuard.getClientIP r) n st1 with
    | error st2 =>
      have hce := checkRequestRate_counts (DdosProtectionGuard.getClientIP r) n st1
      rw [hr] at hce
      exact connOK_of_counts_eq (by simpa [exSt] using hce) h1
    | ok st2 =>
      have hce := checkRequestRate_counts (DdosProtectionGuard.getClientIP r) n st1
      rw [hr] at hce
      have h2 : ConnOK st2 := connOK_of_counts_eq (by simpa [exSt] using hce) h1
      dsimp only
      cases ha : DdosProtectionGuard.analyzeRequestPattern r
          (DdosProtectionGuard.getClientIP r) st2 with
      | error st3 =>
        have hce2 := analyzeRequestPattern_counts r (DdosProtectionGuard.getClientIP r) st2
        rw [ha] at hce2
        exact connOK_of_counts_eq (by simpa [exSt] using hce2) h2
      | ok st3 =>
        have hce2 := analyzeRequestPattern_counts r (DdosProtectionGuard.getClientIP r) st2
        rw [ha] at hce2
        have h3 : ConnOK st3 := connOK_of_counts_eq (by simpa [exSt] using hce2) h2
        dsimp only
        cases hs : DdosProtectionGuard.checkSuspiciousBehavior
            (DdosProtectionGuard.getClientIP r) n st3 with
        | error st4 =>
          have hce3 := checkSuspiciousBehavior_counts (DdosProtectionGuard.getClientIP r) n st3
          rw [hs] at hce3
          exact connOK_of_counts_eq (by simpa [exSt] using hce3) h3
        | ok st4 =>
          have hce3 := checkSuspiciousBehavior_counts (DdosProtectionGuard.getClientIP r) n st3
          rw [hs] at hce3
          exact connOK_of_counts_eq (by simpa [exSt] using hce3) h3

theorem connOK_decrement (ip : String) {st : DdosState} (h : ConnOK st) :
    ConnOK (DdosProtectionGuard.connectionDecrement ip st) := by
  simp only [DdosProtectionGuard.connectionDecrement]
  split
  · next hpos =>
    intro p hp
    rcases mem_setA hp with h2 | h2
    · have h100 : (lookupA ip st.ipConnectionCount).getD 0 ≤ maxConcurrentConnections := by
        cases hc : lookupA ip st.ipConnectionCount with
        | none => simp [maxConcurrentConnections]
        | some c => simpa using (h _ (mem_of_lookupA hc)).2
      rw [h2]
      simp only [maxConcurrentConnections] at h100 ⊢
      constructor <;> omega
    · exact h p h2
  · exact h

theorem connOK_cleanup (n : Int) {st : DdosState} (h : ConnOK st) :
    ConnOK (DdosProtectionGuard.cleanup n st) := by
  intro p hp
  simp only [DdosProtectionGuard.cleanup] at hp
  exact h p (List.mem_filter.mp hp).1

theorem connOK_step (op : DdosOp) {st : DdosState} (h : ConnOK st) :
    ConnOK (ddosStep st op) := by
  cases op with
  | request d r n => exact connOK_canActivate d r n h
  | connectionTimeout ip => exact connOK_decrement ip h
  | cleanupSweep n => exact connOK_cleanup n h
  | adminBlacklist ip => exact connOK_of_counts_eq rfl h
  | adminUnblacklist ip => exact connOK_of_counts_eq rfl h

theorem connOK_run (ops : List DdosOp) : ∀ {st : DdosState}, ConnOK st →
    ConnOK (ops.foldl ddosStep st) := by
  induction ops with
  | nil => exact fun h => h
  | cons op ops ih => exact fun h => ih (connOK_step op h)

theorem connOK_init : ConnOK ddosInit := by
  intro p hp
  simp [ddosInit] at hp

/-! ## Claim theorems -/

/-- C1 (amended): for every request on a route where DDoS protection
is not disabled, a client whose identity is in the blacklist set is
rejected with no state change, regardless of its connection count,
request rate, user-agent or any other state — the blacklist check
precedes and short-circuits every subsequent check.  (The claim as
stated omits the `disable-ddos` route opt-out, which is evaluated
before the blacklist check; see `c1_counterexample`.) -/
theorem c1_blacklist_short_circuit (st : DdosState) (req : DdosRequest) (now : Int)
    (h : st.blacklistedIPs.contains (DdosProtectionGuard.getClientIP req) = true) :
    DdosProtectionGuard.canActivate false req now st = (.reject, st, false) := by
  simp only [DdosProtectionGuard.canActivate]
  rw [if_neg (by simp), if_pos h]

/-- C1 counterexample: on a route carrying the `disable-ddos` opt-out,
`canActivate` admits even a blacklisted client (the flag is checked
before the blacklist), refuting the claim as stated for such
requests. -/
theorem c1_counterexample :
    ddosInit.blacklistedIPs.contains (DdosProtectionGuard.getClientIP blacklistedRequest)
      = true ∧
    (DdosProtectionGuard.canActivate true blacklistedRequest 0 ddosInit).1 = .allow := by
  decide

/-- C1 witness: the amended theorem applied to the constructor-time
blacklist entry `0.0.0.0`. -/
theorem c1_witness :
    DdosProtectionGuard.canActivate false blacklistedRequest 0 ddosInit
      = (.reject, ddosInit, false) :=
  c1_blacklist_short_circuit ddosInit blacklistedRequest 0 (by decide)

/-- C2: the per-client connection counter stays in `[0, 100]` after
any sequence of requests, scheduled decrements, cleanup sweeps and
admin operations; the concurrent-connection check rejects when the
counter has reached 100; and the scheduled decrement fires only when
the counter is positive. -/
theorem c2_connection_counter_invariant :
    (∀ (ops : List DdosOp) (ip : String) (c : Int),
       lookupA ip (ddosRun ops).ipConnectionCount = some c → 0 ≤ c ∧ c ≤ 100) ∧
    (∀ (ip : String) (st : DdosState),
       100 ≤ (lookupA ip st.ipConnectionCount).getD 0 →
       DdosProtectionGuard.checkConcurrentConnections ip st = .error st) ∧
    (∀ (ip : String) (st : DdosState),
       (lookupA ip st.ipConnectionCount).getD 0 ≤ 0 →
       DdosProtectionGuard.connectionDecrement ip st = st) := by
  refine ⟨fun ops ip c h => ?_, fun ip st h => ?_, fun ip st h => ?_⟩
  · have h2 := (connOK_run ops connOK_init) (ip, c) (mem_of_lookupA h)
    simpa [maxConcurrentConnections] using h2
  · simp only [DdosProtectionGuard.checkConcurrentConnections, maxConcurrentConnections]
    rw [if_pos (by exact h)]
  · simp only [DdosProtectionGuard.connectionDecrement]
    rw [if_neg (by omega)]

/-- C2 witness: one admitted request leaves the counter at 1, inside
the claimed bounds; a zeroed counter is not decremented. -/
theorem c2_witness :
    (lookupA "1.2.3.4" (ddosRun [.request false benignRequest 0]).ipConnectionCount
       = some 1 ∧ 0 ≤ (1 : Int) ∧ (1 : Int) ≤ 100) ∧
    DdosProtectionGuard.connectionDecrement "9.9.9.9" ddosInit = ddosInit :=
  ⟨⟨by decide, c2_connection_counter_invariant.1 [.request false benignRequest 0]
      "1.2.3.4" 1 (by decide)⟩,
   c2_connection_counter_invariant.2.2 "9.9.9.9" ddosInit (by decide)⟩

/-- C3 counterexample: a client with exactly 200 requests inside the
window — at the suspicious threshold but under the 300 limit — is
admitted by the rate check and is not added to the suspicious set,
refuting the claim that reaching 200 marks the client suspicious even
when admitted. -/
theorem c3_counterexample :
    ((((lookupA "7.7.7.7" rate200State.ipRequestHistory).getD []).filter
        (fun ts => (0 : Int) - ts < timeWindow)).length = 200) ∧
    (DdosProtectionGuard.checkRequestRate "7.7.7.7" 0 rate200State).isOk = true ∧
    (exSt (DdosProtectionGuard.checkRequestRate "7.7.7.7" 0 rate200State)).suspiciousIPs
      = [] := by
  decide

/-- C3 (amended): the sliding-window rate check rejects exactly when
the in-window count is at least the 300 limit, and the client is
marked suspicious exactly on rejection (the nested 200 threshold is
then automatically met, since 300 ≥ 200); a client whose count is
below 300 — even one at or above 200 — is admitted with its timestamp
appended and the suspicious set unchanged. -/
theorem c3_rate_check (st : DdosState) (ip : String) (now : Int) :
    (300 ≤ (((lookupA ip st.ipRequestHistory).getD []).filter
        (fun ts => now - ts < timeWindow)).length →
      DdosProtectionGuard.checkRequestRate ip now st =
        .error { st with suspiciousIPs := addSet ip st.suspiciousIPs }) ∧
    ((((lookupA ip st.ipRequestHistory).getD []).filter
        (fun ts => now - ts < timeWindow)).length < 300 →
      DdosProtectionGuard.checkRequestRate ip now st =
        .ok { st with ipRequestHistory := setA ip ((((lookupA ip st.ipRequestHistory).getD []).filter (fun ts => now - ts < timeWindow)) ++ [now]) st.ipRequestHistory }) := by
  constructor <;> intro h
  · simp only [DdosProtectionGuard.checkRequestRate, maxRequestsPerMinute,
      suspiciousRequestsThreshold]
    rw [if_pos (by omega), if_pos (by omega)]
  · simp only [DdosProtectionGuard.checkRequestRate, maxRequestsPerMinute]
    rw [if_neg (by omega)]

/-- C3 witness: the amended theorem applied at the 200-request state
(admitted, suspicious set unchanged). -/
theorem c3_witness :
    DdosProtectionGuard.checkRequestRate "7.7.7.7" 0 rate200State =
      .ok { rate200State with ipRequestHistory := setA "7.7.7.7" ((((lookupA "7.7.7.7" rate200State.ipRequestHistory).getD []).filter (fun ts => (0 : Int) - ts < timeWindow)) ++ [0]) rate200State.ipRequestHistory } :=
  (c3_rate_check rate200State "7.7.7.7" 0).2 (by decide)

/-- C4: evaluating the WAF at the failing input.  Two consecutive
requests whose body is the raw string `<script>alert(1)</script>` hit
the same stateful `g`-flagged pattern objects: the first request is
blocked with category XSS, but the second is allowed, because the
matching pattern retained `lastIndex = 25` and its next `test` starts
past the end of the string — refuting the claim that every request
containing the probe is blocked. -/
theorem c4_stateful_pattern_misses_second_scan :
    (WafGuard.canActivate false xssRequest wafInit).1
      = some (.hit Category.xss "request body") ∧
    (WafGuard.canActivate false xssRequest
        (WafGuard.canActivate false xssRequest wafInit).2).1 = none := by
  decide

/-- C5: for every key, value and positive ttl `T`, a `get` strictly
before `T` seconds have elapsed since the `set` returns exactly the
stored value, and a `get` strictly after `T` seconds returns a miss
and evicts the expired memory entry — in the memory-only configuration
and in the dual-tier configuration alike (`JSON` round-trips modelled
as the identity). -/
theorem c5_ttl_laws {V : Type} (st : CacheState V) (t0 t1 : Int) (k : String) (v : V)
    (T : Int) (hT : 0 < T) (hnd : (st.memoryCache.map Prod.fst).Nodup) :
    (t1 - t0 < T * 1000 →
      (CacheService.get (CacheService.set st t0 k v (some T) false).2 t1 k false).1
        = some v) ∧
    (T * 1000 < t1 - t0 →
      (CacheService.get (CacheService.set st t0 k v (some T) false).2 t1 k false).1
        = none ∧
      lookupA k
        (CacheService.get (CacheService.set st t0 k v (some T) false).2 t1 k
          false).2.memoryCache = none) := by
  have hT0 : T ≠ 0 := by omega
  have httl : finalTtlOf (some T) = T := by simp [finalTtlOf, hT0]
  cases hred : st.redis with
  | none =>
    have hset : (CacheService.set st t0 k v (some T) false).2
        = { st with memoryCache := setA k ⟨v, t0, T⟩ st.memoryCache } := by
      simp [CacheService.set, hred, httl]
    constructor
    · intro h
      have hle : t1 - t0 ≤ T * 1000 := le_of_lt h
      simp [CacheService.get, hset, hred, CacheService.memoryGet, lookupA_setA_self, hle]
    · intro h
      have hgt : ¬ (t1 - t0 ≤ T * 1000) := by omega
      simp [CacheService.get, hset, hred, CacheService.memoryGet, lookupA_setA_self, hgt,
        lookupA_eraseA_self k (nodup_setA k _ hnd)]
  | some r =>
    have hset : (CacheService.set st t0 k v (some T) false).2
        = { redis := some ⟨setA (prefixKey k) (v, t0 + T * 1000) r.store⟩,
            memoryCache := setA k ⟨v, t0, T⟩ st.memoryCache } := by
      simp [CacheService.set, hred, httl, redisSetex]
    constructor
    · intro h
      have hlt : t1 < t0 + T * 1000 := by omega
      simp [CacheService.get, hset, redisGetI, lookupA_setA_self, hlt]
    · intro h
      have hge : ¬ (t1 < t0 + T * 1000) := by omega
      have hgt : ¬ (t1 - t0 ≤ T * 1000) := by omega
      simp [CacheService.get, hset, redisGetI, lookupA_setA_self, hge,
        CacheService.memoryGet, hgt, lookupA_eraseA_self k (nodup_setA k _ hnd)]

/-- C5 witness: an entry set at `t = 0` with ttl 60 s is returned
unchanged at `t = 59999` ms and is a miss at `t = 60001` ms. -/
theorem c5_witness :
    (CacheService.get (CacheService.set (⟨none, []⟩ : CacheState Nat) 0 "k" 7
        (some 60) false).2 59999 "k" false).1 = some 7 ∧
    (CacheService.get (CacheService.set (⟨none, []⟩ : CacheState Nat) 0 "k" 7
        (some 60) false).2 60001 "k" false).1 = none :=
  ⟨(c5_ttl_laws ⟨none, []⟩ 0 59999 "k" 7 60 (by decide) (by decide)).1 (by decide),
   ((c5_ttl_laws ⟨none, []⟩ 0 60001 "k" 7 60 (by decide) (by decide)).2 (by decide)).1⟩

/-- C7: for every `set`, the in-memory fallback tier is written — also
when the primary write throws — and the call reports success; and a
`get` whose primary command throws yields a cache miss (`null`) with
no error surfaced and no state change. -/
theorem c7_backend_failure_absorbed :
    (∀ (V : Type) (st : CacheState V) (now : Int) (k : String) (v : V)
       (ttl : Option Int) (redisFails : Bool),
       (CacheService.set st now k v ttl redisFails).1 = true ∧
       lookupA k (CacheService.set st now k v ttl redisFails).2.memoryCache
         = some ⟨v, now, finalTtlOf ttl⟩) ∧
    (∀ (V : Type) (st : CacheState V) (now : Int) (k : String) (r : RedisState V),
       st.redis = some r → CacheService.get st now k true = (none, st)) := by
  constructor
  · intro V st now k v ttl redisFails
    cases hred : st.redis with
    | none => simp [CacheService.set, hred, lookupA_setA_self]
    | some r =>
      cases redisFails <;> simp [CacheService.set, hred, lookupA_setA_self]
  · intro V st now k r h
    simp [CacheService.get, h]

/-- C7 witness: a `set` against a throwing primary still succeeds and
writes the fallback; a `get` against a throwing primary is a miss. -/
theorem c7_witness :
    ((CacheService.set (⟨some ⟨[]⟩, []⟩ : CacheState Nat) 0 "k" 7 none true).1 = true ∧
     lookupA "k" (CacheService.set (⟨some ⟨[]⟩, []⟩ : CacheState Nat) 0 "k" 7 none
       true).2.memoryCache = some ⟨7, 0, finalTtlOf none⟩) ∧
    CacheService.get (⟨some ⟨[]⟩, []⟩ : CacheState Nat) 0 "k" true
      = (none, (⟨some ⟨[]⟩, []⟩ : CacheState Nat)) :=
  ⟨c7_backend_failure_absorbed.1 Nat ⟨some ⟨[]⟩, []⟩ 0 "k" 7 none true,
   c7_backend_failure_absorbed.2 Nat ⟨some ⟨[]⟩, []⟩ 0 "k" ⟨[]⟩ rfl⟩

/-- C8: whenever URL-decoding an input throws, `decodeInput` returns
the raw string unchanged, so `scanString` tests the raw, undecoded
string against all six signature pattern sets — the scan is neither
bypassed nor does the decode failure itself produce a block. -/
theorem c8_decode_failure_scans_raw (st : WafState) (input : List Char)
    (h : decodeURIComponentE input = none) :
    decodeInput input = input ∧
    (input ≠ [] → WafGuard.scanString st input = scanCategories st (lowerL input)) ∧
    (input = [] → WafGuard.scanString st input = (none, st)) := by
  have hd : decodeInput input = input := by
    unfold decodeInput
    rw [h]
  refine ⟨hd, fun h2 => ?_, fun h2 => ?_⟩
  · unfold WafGuard.scanString
    rw [if_neg h2, hd]
  · unfold WafGuard.scanString
    rw [if_pos h2]

/-- C8 witness: the lone `%` is a malformed escape (decode throws),
and the raw string is what gets scanned. -/
theorem c8_witness :
    decodeInput "%".data = "%".data ∧
    WafGuard.scanString wafInit "%".data = scanCategories wafInit (lowerL "%".data) :=
  ⟨(c8_decode_failure_scans_raw wafInit "%".data (by decide)).1,
   (c8_decode_failure_scans_raw wafInit "%".data (by decide)).2.1 (by decide)⟩

/-- C9: one cleanup sweep (a) leaves in every kept request window only
timestamps younger than the 10-minute retention — each kept window is
the retention-filtered window of an existing client, and clients whose
filtered window is empty are deleted while the others are kept —
(b) deletes exactly the connection counters that are zero or negative,
(c) empties the suspicious set, and (d) leaves the blacklist
unchanged. -/
theorem c9_cleanup_effects (st : DdosState) (now : Int) :
    (∀ p ∈ (DdosProtectionGuard.cleanup now st).ipRequestHistory,
       (∀ ts ∈ p.2, now - ts < cleanupAge) ∧ p.2 ≠ [] ∧
       ∃ w, (p.1, w) ∈ st.ipRequestHistory ∧
         p.2 = w.filter (fun ts => now - ts < cleanupAge)) ∧
    (∀ q ∈ st.ipRequestHistory,
       q.2.filter (fun ts => now - ts < cleanupAge) ≠ [] →
       (q.1, q.2.filter (fun ts => now - ts < cleanupAge))
         ∈ (DdosProtectionGuard.cleanup now st).ipRequestHistory) ∧
    (∀ p ∈ (DdosProtectionGuard.cleanup now st).ipConnectionCount,
       p ∈ st.ipConnectionCount ∧ 0 < p.2) ∧
    (∀ p ∈ st.ipConnectionCount, 0 < p.2 →
       p ∈ (DdosProtectionGuard.cleanup now st).ipConnectionCount) ∧
    (DdosProtectionGuard.cleanup now st).suspiciousIPs = [] ∧
    (DdosProtectionGuard.cleanup now st).blacklistedIPs = st.blacklistedIPs := by
  refine ⟨?_, ?_, ?_, ?_, rfl, rfl⟩
  · intro p hp
    simp only [DdosProtectionGuard.cleanup] at hp
    obtain ⟨hm, hne⟩ := List.mem_filter.mp hp
    obtain ⟨q, hq, rfl⟩ := List.mem_map.mp hm
    refine ⟨fun ts hts => ?_, ?_, q.2, hq, rfl⟩
    · have := (List.mem_filter.mp hts).2
      simpa using this
    · simpa using hne
  · intro q hq hne
    simp only [DdosProtectionGuard.cleanup]
    refine List.mem_filter.mpr ⟨List.mem_map.mpr ⟨q, hq, rfl⟩, ?_⟩
    simpa using hne
  · intro p hp
    simp only [DdosProtectionGuard.cleanup] at hp
    obtain ⟨hm, hc⟩ := List.mem_filter.mp hp
    refine ⟨hm, ?_⟩
    simp at hc
    omega
  · intro p hp hpos
    simp only [DdosProtectionGuard.cleanup]
    refine List.mem_filter.mpr ⟨hp, ?_⟩
    simp
    omega

/-- C9 witness: a sweep at `now = 600000` over a state with one stale
timestamp, one fresh timestamp, a zero counter and a suspicious entry:
the zero counter is gone, the positive one kept, the suspicious set is
emptied and the blacklist untouched. -/
theorem c9_witness :
    (("b", (3 : Int)) ∈ (DdosProtectionGuard.cleanup 600000
       ⟨[("a", 0), ("b", 3)], [("ip1", [0, 500000])], ["s"], ["0.0.0.0"], []⟩).ipConnectionCount) ∧
    (DdosProtectionGuard.cleanup 600000
       ⟨[("a", 0), ("b", 3)], [("ip1", [0, 500000])], ["s"], ["0.0.0.0"], []⟩).suspiciousIPs = [] ∧
    (DdosProtectionGuard.cleanup 600000
       ⟨[("a", 0), ("b", 3)], [("ip1", [0, 500000])], ["s"], ["0.0.0.0"], []⟩).blacklistedIPs
      = ["0.0.0.0"] :=
  ⟨(c9_cleanup_effects ⟨[("a", 0), ("b", 3)], [("ip1", [0, 500000])], ["s"], ["0.0.0.0"], []⟩
      600000).2.2.2.1 ("b", 3) (by decide) (by decide),
   (c9_cleanup_effects _ 600000).2.2.2.2.1,
   (c9_cleanup_effects ⟨[("a", 0), ("b", 3)], [("ip1", [0, 500000])], ["s"], ["0.0.0.0"], []⟩
      600000).2.2.2.2.2⟩

/-- C10 counterexample: an event recorded exactly 24 hours ago — hence
not strictly older than 24 hours — is nevertheless removed by the
prune (the filter keeps only `timestamp > now - 24h`), refuting the
claim that exactly the events older than 24 hours are removed. -/
theorem c10_counterexample :
    SecurityMonitoringMiddleware.cleanupOldEvents 86400000 [bdryEvent] = [] ∧
    ¬ (86400000 - bdryEvent.timestamp > 24 * 60 * 60 * 1000) := by
  decide

/-- C10 (amended): the stored event list never exceeds the 10000
capacity after a record call, excess removal drops the oldest entries
first (the stored list is always a suffix of the pushed list, and
nothing is dropped below capacity), and the age prune keeps exactly
the events aged strictly less than 24 hours — in order and
unmutated — removing those aged 24 hours or more. -/
theorem c10_event_store_bounds :
    (∀ (evs : List SecurityEvent) (ev : SecurityEvent),
       (SecurityMonitoringMiddleware.logSecurityEvent evs ev).length ≤ maxEvents) ∧
    (∀ (evs : List SecurityEvent) (ev : SecurityEvent),
       (SecurityMonitoringMiddleware.logSecurityEvent evs ev) <:+ (evs ++ [ev])) ∧
    (∀ (evs : List SecurityEvent) (ev : SecurityEvent), evs.length < maxEvents →
       SecurityMonitoringMiddleware.logSecurityEvent evs ev = evs ++ [ev]) ∧
    (∀ (now : Int) (evs : List SecurityEvent),
       (SecurityMonitoringMiddleware.cleanupOldEvents now evs).Sublist evs ∧
       (∀ e, e ∈ SecurityMonitoringMiddleware.cleanupOldEvents now evs ↔
          e ∈ evs ∧ now - e.timestamp < 24 * 60 * 60 * 1000)) := by
  refine ⟨fun evs ev => ?_, fun evs ev => ?_, fun evs ev h => ?_, fun now evs => ⟨?_, fun e => ?_⟩⟩
  · simp only [SecurityMonitoringMiddleware.logSecurityEvent, maxEvents]
    split
    · simp only [List.length_drop]
      omega
    · next hnot =>
      simp only [List.length_append, List.length_singleton] at hnot ⊢
      omega
  · simp only [SecurityMonitoringMiddleware.logSecurityEvent]
    split
    · exact List.drop_suffix _ _
    · exact List.suffix_refl _
  · simp only [SecurityMonitoringMiddleware.logSecurityEvent, maxEvents] at h ⊢
    rw [if_neg (by simp; omega)]
  · exact List.filter_sublist _
  · simp only [SecurityMonitoringMiddleware.cleanupOldEvents]
    rw [List.mem_filter]
    refine and_congr_right fun _ => ?_
    rw [decide_eq_true_iff]
    omega

/-- C10 witness: below capacity nothing is dropped, and the prune
keeps an event one millisecond younger than 24 hours. -/
theorem c10_witness :
    SecurityMonitoringMiddleware.logSecurityEvent [] bdryEvent = [bdryEvent] ∧
    (bdryEvent ∈ SecurityMonitoringMiddleware.cleanupOldEvents 86399999 [bdryEvent]) :=
  ⟨by simpa using c10_event_store_bounds.2.2.1 [] bdryEvent (by decide),
   ((c10_event_store_bounds.2.2.2 86399999 [bdryEvent]).2 bdryEvent).mpr
     (by exact ⟨by decide, by decide⟩)⟩

/-! ## Glob semantics lemmas (for C6) -/

theorem nlSuffixes_self_mem (k : List Char) : k ∈ nlSuffixes k := by
  cases k <;> simp [nlSuffixes]

theorem nlSuffixes_all {P : Char → Bool} {k t : List Char} (hk : k.all P = true)
    (ht : t ∈ nlSuffixes k) : t.all P = true := by
  induction k with
  | nil =>
    simp [nlSuffixes] at ht
    subst ht
    simp
  | cons c ks ih =>
    simp only [List.all_cons, Bool.and_eq_true] at hk
    simp only [nlSuffixes] at ht
    rcases List.mem_cons.mp ht with h2 | h2
    · subst h2
      simp [hk.1, hk.2]
    · by_cases hc : c = '\n'
      · rw [if_pos hc] at h2
        simp at h2
      · rw [if_neg hc] at h2
        exact ih hk.2 h2

theorem globSpec_star_of_mem {ps k t : List Char} (ht : t ∈ nlSuffixes k)
    (h : GlobSpec ps t) : GlobSpec ('*' :: ps) k := by
  induction k with
  | nil =>
    simp [nlSuffixes] at ht
    subst ht
    exact .star_empty h
  | cons c ks ih =>
    simp only [nlSuffixes] at ht
    rcases List.mem_cons.mp ht with h2 | h2
    · subst h2
      exact .star_empty h
    · by_cases hc : c = '\n'
      · rw [if_pos hc] at h2
        simp at h2
      · rw [if_neg hc] at h2
        exact .star_cons (ih h2)

theorem globSpec_star_inv {ps k : List Char}
    (hk : k.all (fun c => c ≠ '\n') = true) (h : GlobSpec ('*' :: ps) k) :
    ∃ t ∈ nlSuffixes k, GlobSpec ps t := by
  induction k with
  | nil =>
    cases h with
    | star_empty h2 => exact ⟨[], by simp [nlSuffixes], h2⟩
  | cons c ks ih =>
    simp only [List.all_cons, Bool.and_eq_true] at hk
    have hc : c ≠ '\n' := by simpa using hk.1
    cases h with
    | star_empty h2 => exact ⟨c :: ks, nlSuffixes_self_mem _, h2⟩
    | star_cons h2 =>
      obtain ⟨t, ht, hgs⟩ := ih hk.2 h2
      exact ⟨t, by simp [nlSuffixes, hc]; exact .inr ht, hgs⟩
    | lit hne _ _ => exact absurd rfl hne

theorem globMatch_iff_globSpec (pat : List Char) : ∀ (key : List Char),
    pat.all globSafeChar = true → key.all (fun c => c ≠ '\n') = true →
    (globMatch pat key = true ↔ GlobSpec pat key) := by
  induction pat with
  | nil =>
    intro key _ _
    constructor
    · intro hm
      have : key = [] := by simpa [globMatch, List.isEmpty_iff] using hm
      subst this
      exact .nil
    · intro h
      cases h
      simp [globMatch]
  | cons p ps ih =>
    intro key hpat hkey
    simp only [List.all_cons, Bool.and_eq_true] at hpat
    by_cases hstar : p = '*'
    · subst hstar
      rw [show globMatch ('*' :: ps) key
            = (nlSuffixes key).any (fun t => globMatch ps t) from by simp [globMatch]]
      rw [List.any_eq_true]
      constructor
      · rintro ⟨t, ht, hm⟩
        exact globSpec_star_of_mem ht
          ((ih t hpat.2 (nlSuffixes_all hkey ht)).mp hm)
      · intro h
        obtain ⟨t, ht, hgs⟩ := globSpec_star_inv hkey h
        exact ⟨t, ht, (ih t hpat.2 (nlSuffixes_all hkey ht)).mpr hgs⟩
    · by_cases hq : p = '?'
      · subst hq
        cases key with
        | nil =>
          constructor
          · intro hm
            simp [globMatch] at hm
          · intro h
            cases h
        | cons c ks =>
          simp only [List.all_cons, Bool.and_eq_true] at hkey
          have hc : c ≠ '\n' := by simpa using hkey.1
          constructor
          · intro hm
            have hm2 : globMatch ps ks = true := by
              simp [globMatch, hc] at hm
              exact hm
            exact .one ((ih ks hpat.2 hkey.2).mp hm2)
          · intro h
            cases h with
            | one h2 =>
              simp only [globMatch]
              simp [hc]
              exact (ih ks hpat.2 hkey.2).mpr h2
            | lit hne hne2 h3 => exact absurd rfl hne2
      · have hdot : p ≠ '.' := by
          intro he
          subst he
          simp [globSafeChar, isWordChar] at hpat
        cases key with
        | nil =>
          constructor
          · intro hm
            simp [globMatch, hstar] at hm
          · intro h
            cases h with
            | star_empty h2 => exact absurd rfl hstar
        | cons c ks =>
          simp only [List.all_cons, Bool.and_eq_true] at hkey
          simp only [globMatch, if_neg hstar]
          rw [if_neg (fun hcon => hcon.elim hq hdot), Bool.and_eq_true, decide_eq_true_iff]
          constructor
          · rintro ⟨rfl, hm⟩
            exact .lit hstar hq ((ih ks hpat.2 hkey.2).mp hm)
          · intro h
            cases h with
            | star_empty h2 => exact absurd rfl hstar
            | star_cons h2 => exact absurd rfl hstar
            | one h2 => exact absurd rfl hq
            | lit hne hne2 h3 => exact ⟨rfl, (ih ks hpat.2 hkey.2).mpr h3⟩

theorem lookupA_foldl_eraseA {β : Type _} (ks : List String) (m : List (String × β))
    (key : String) (hnd : (m.map Prod.fst).Nodup) :
    lookupA key (ks.foldl (fun acc k2 => eraseA k2 acc) m)
      = if key ∈ ks then none else lookupA key m := by
  induction ks generalizing m with
  | nil => simp
  | cons k2 ks ih =>
    simp only [List.foldl_cons]
    rw [ih (eraseA k2 m) (nodup_eraseA k2 hnd)]
    by_cases hk : key = k2
    · subst hk
      by_cases hks : key ∈ ks
      · simp [hks]
      · simp [hks, lookupA_eraseA_self key hnd]
    · rw [lookupA_eraseA_ne hk]
      by_cases hks : key ∈ ks <;> simp [List.mem_cons, hk, hks]

/-- C6: the compiled glob is an anchored full-match test — for
patterns over word characters, `:` and the two wildcards, and keys
without newlines, the code's matcher agrees exactly with the spec's
glob semantics (`*` any run, `?` one character, whole-key match) —
and, in the memory-only configuration, `deletePattern` removes exactly
the matching keys and returns their number; on the spec's example
store `{user:1, user:2, task:1}` with pattern `user:*` it removes the
two `user:` keys, keeps `task:1` and returns 2. -/
theorem c6_delete_pattern :
    (∀ pat key : List Char, pat.all globSafeChar = true →
       key.all (fun c => c ≠ '\n') = true →
       (globMatch pat key = true ↔ GlobSpec pat key)) ∧
    (∀ (V : Type) (st : CacheState V) (pattern : String), st.redis = none →
       (st.memoryCache.map Prod.fst).Nodup →
       (∀ key, lookupA key (CacheService.deletePattern st pattern false).2.memoryCache =
          if CacheService.matchesPattern key pattern then none
          else lookupA key st.memoryCache) ∧
       (CacheService.deletePattern st pattern false).1 =
         ((st.memoryCache.map Prod.fst).filter
           (fun k2 => CacheService.matchesPattern k2 pattern)).length) ∧
    (CacheService.deletePattern globStore "user:*" false
       = (2, ⟨none, [("task:1", natItem)]⟩)) := by
  refine ⟨fun pat key h1 h2 => globMatch_iff_globSpec pat key h1 h2, ?_, by decide⟩
  intro V st pattern hred hnd
  constructor
  · intro key
    simp only [CacheService.deletePattern, hred]
    rw [lookupA_foldl_eraseA _ _ _ hnd]
    by_cases hm : CacheService.matchesPattern key pattern = true
    · by_cases hmem : key ∈ st.memoryCache.map Prod.fst
      · rw [if_pos (List.mem_filter.mpr ⟨hmem, hm⟩), if_pos hm]
      · rw [if_neg (fun hin => hmem (List.mem_filter.mp hin).1), if_pos hm,
          lookupA_eq_none hmem]
    · have hnin : key ∉ (st.memoryCache.map Prod.fst).filter
          (fun k2 => CacheService.matchesPattern k2 pattern) :=
        fun hin => hm (List.mem_filter.mp hin).2
      rw [if_neg hnin, if_neg hm]
  · simp only [CacheService.deletePattern, hred]

/-- C6 witness: `user:*` matches `user:1` in the spec's glob
semantics, `user:1` is gone after the deletion and the removed count
is 2. -/
theorem c6_witness :
    GlobSpec "user:*".data "user:1".data ∧
    lookupA "user:1" (CacheService.deletePattern globStore "user:*" false).2.memoryCache
      = none ∧
    (CacheService.deletePattern globStore "user:*" false).1 = 2 :=
  ⟨(c6_delete_pattern.1 "user:*".data "user:1".data (by decide) (by decide)).mp (by decide),
   by
     have h := (c6_delete_pattern.2.1 Nat globStore "user:*" rfl (by decide)).1 "user:1"
     simpa using h,
   by rw [c6_delete_pattern.2.2]⟩

end Gateway
